import Mathlib

/-!
Shallow embedding of the goszakup tender-data parser (Python sources:
`config.py`, `parsers.py`, `http_client.py`, `database.py`, `main.py`,
`scraper.py`) together with proofs about the embedded operations.

Conventions used throughout:
* HTML markup is abstracted to the data the XPath queries of the source
  return from it (for an announcement page, the list of `data-lot-id`
  attribute values; for a lot-detail fragment, the list of
  (header-cell text, data-cell text) row pairs).
* SQLite tables are modelled as Lean lists of rows in insertion order
  (`ORDER BY id` of the source is list order); SQL `UPDATE ... WHERE`
  maps over the rows, the `UNIQUE` constraint is an explicit key check.
* Timestamps are abstract `Nat` instants supplied by the caller.
* Delay durations are embedded as `Nat` seconds: the configured delays
  (`RETRY_BASE_DELAY = 3.0`, `RATE_LIMIT_DELAY = 10.0`) are whole seconds
  and the source only multiplies them by attempt counts and powers of two,
  so the embedding is exact.
-/

namespace Goszakup

/-- FIELD_MAPPING from `config.py`: the fixed Russian table-header →
database-column mapping, 12 entries in source order. -/
def FIELD_MAPPING : List (String × String) := [
  ("Лот №", "lot_number"),
  ("Статус лота", "lot_status"),
  ("БИН заказчика", "customer_bin"),
  ("Наименование заказчика", "customer_name"),
  ("Код ТРУ", "tru_code"),
  ("Наименование ТРУ", "tru_name"),
  ("Краткая характеристика", "brief_description"),
  ("Дополнительная характеристика", "additional_description"),
  ("Цена за единицу", "price_per_unit"),
  ("Единица измерения", "unit_of_measurement"),
  ("Количество", "quantity"),
  ("Место поставки товара, КАТО", "delivery_location_kato")]

/-- Count of non-null values of a field mapping: embeds
`sum(1 for v in parsed_data.values() if v is not None)` from
`parsers.determine_parse_status` (and `parse_lot_table`). -/
def filledFields (parsed_data : List (String × Option String)) : Nat :=
  (parsed_data.filter (fun p => p.2.isSome)).length

/-- determine_parse_status from `parsers.py`: tri-state classification of a
parsed field mapping, with the exact message strings of the source. -/
def determine_parse_status (parsed_data : List (String × Option String)) :
    String × Option String :=
  let filled_fields := filledFields parsed_data
  let total_fields := FIELD_MAPPING.length
  if filled_fields = 0 then
    ("failed", some "No fields could be parsed")
  else if filled_fields < total_fields then
    ("partial", some ("Only " ++ toString filled_fields ++ "/" ++ toString total_fields
      ++ " fields parsed (" ++ toString (total_fields - filled_fields) ++ " missing)"))
  else
    ("success", none)

/-- The dedup loop of `parsers.extract_lot_ids`: walk the attribute values,
keep a value iff it is non-empty (Python truthiness of the string) and not
yet in `seen`; `seen` accumulates the kept values. -/
def dedupLotIds (seen : List String) : List String → List String
  | [] => []
  | lot_id :: rest =>
    if lot_id ≠ "" ∧ lot_id ∉ seen then lot_id :: dedupLotIds (lot_id :: seen) rest
    else dedupLotIds seen rest

/-- extract_lot_ids from `parsers.py`, with the markup abstracted to the list
of `data-lot-id` attribute values that the XPath query
`//a[@data-lot-id]/@data-lot-id` returns (markup without the attribute, or
markup the parser rejects, yields the empty list — the surrounding
try/except likewise returns `[]` rather than raising). -/
def extract_lot_ids (lot_ids : List String) : List String :=
  dedupLotIds [] lot_ids

/-- Specification-side definition (from the spec words, for the refinement
claim about `extract_lot_ids`): deduplicate a list keeping the first
occurrence of each element. -/
def firstSeenDedup : List String → List String
  | [] => []
  | x :: xs => x :: firstSeenDedup (xs.filter (fun y => y ≠ x))
termination_by l => l.length
decreasing_by
  simp only [List.length_cons]
  exact Nat.lt_succ_of_le (List.length_filter_le _ _)

/-- Lookup of a Russian header in FIELD_MAPPING
(`if field_name in FIELD_MAPPING` / `FIELD_MAPPING[field_name]`). -/
def lookupMapping (field_name : String) : Option String :=
  (FIELD_MAPPING.find? (fun p => p.1 == field_name)).map Prod.snd

/-- Python `str.strip()`: drop leading and trailing whitespace.  Implemented
over the character list of the string so that it evaluates by kernel
reduction. -/
def charTrim (s : String) : String :=
  String.mk (((s.data.dropWhile Char.isWhitespace).reverse.dropWhile
    Char.isWhitespace).reverse)

/-- Dict update `result[english_name] = v` on the fixed-key field mapping. -/
def setField (result : List (String × Option String)) (key : String)
    (v : Option String) : List (String × Option String) :=
  result.map (fun p => if p.1 = key then (p.1, v) else p)

/-- parse_lot_table from `parsers.py`, with the markup abstracted to the list
of (header cell, data cell) text pairs of the rows the XPath strategies
locate: start from all 12 fields null, then for each row map the stripped
header through FIELD_MAPPING (unmapped headers ignored) and store the
stripped value, empty value stored as null. -/
def parse_lot_table (rows : List (String × String)) : List (String × Option String) :=
  rows.foldl
    (fun result row =>
      let field_name := charTrim row.1
      let field_value := charTrim row.2
      match lookupMapping field_name with
      | some english_name =>
        setField result english_name (if field_value = "" then none else some field_value)
      | none => result)
    (FIELD_MAPPING.map (fun p => (p.2, (none : Option String))))

/-- Helper for `extract_announce_id`: Python `parts.index('index')` followed
by `parts[idx + 1] if idx + 1 < len(parts) else None` — the segment right
after the first occurrence of the marker `"index"`. -/
def afterIndexMarker : List String → Option String
  | [] => none
  | part :: rest => if part = "index" then rest.head? else afterIndexMarker rest

/-- Python `str.split('/')` on the character list of the string: splitting
an empty string yields one empty segment, adjacent separators yield empty
segments, exactly as `"a//b".split('/') == ['a', '', 'b']`. -/
def splitOnSlash : List Char → List (List Char)
  | [] => [[]]
  | c :: rest =>
    let r := splitOnSlash rest
    if c = '/' then [] :: r
    else
      match r with
      | [] => [[c]]
      | seg :: segs => (c :: seg) :: segs

/-- extract_announce_id from `parsers.py`:
`url.rstrip('/').split('/')`, then the segment following the first
`"index"` segment, `none` when absent (the `try/except` never fires on this
code path).  Implemented over the character list of the URL so that it
evaluates by kernel reduction. -/
def extract_announce_id (url : String) : Option String :=
  let stripped := (url.data.reverse.dropWhile (fun c => c = '/')).reverse
  afterIndexMarker ((splitOnSlash stripped).map (fun cs => String.mk cs))

/-- Outcome of one transport attempt inside `post_with_retry`: an HTTP
response with a status code, or one of the exception classes the source
catches (`requests.exceptions.Timeout`, `ConnectionError`, and the generic
`RequestException` — the latter also covers the `HTTPError` that
`raise_for_status()` raises for 4xx statuses). -/
inductive TransportEvent
  | status (code : Nat)
  | timeout
  | connError
  | reqError
deriving Repr, DecidableEq

/-- Configuration of `GoszakupHTTPClient` (`http_client.py`). -/
structure HTTPClient where
  max_retries : Nat
  base_delay : Nat
  rate_limit_delay : Nat
deriving Repr, DecidableEq

/-- The client built from the constants of `config.py`:
MAX_RETRIES = 3, RETRY_BASE_DELAY = 3.0, RATE_LIMIT_DELAY = 10.0. -/
def defaultClient : HTTPClient := ⟨3, 3, 10⟩

/-- Exponential backoff amount `self.base_delay * (2 ** (attempt - 1))`. -/
def backoffDelay (c : HTTPClient) (attempt : Nat) : Nat :=
  c.base_delay * 2 ^ (attempt - 1)

/-- The `for attempt in range(1, self.max_retries + 1)` loop of
`GoszakupHTTPClient.post_with_retry`, given a transport oracle mapping the
attempt number to its outcome.  Returns the status code of the returned
response (`none` when every path failed) together with the list of sleep
durations performed, in order.  Branches, in source order: 429 → sleep
`rate_limit_delay * attempt` and continue (even on the final attempt);
5xx → backoff-sleep and retry if attempts remain, else `none`; other 4xx →
`raise_for_status()` raises `HTTPError`, caught by the generic
`RequestException` handler, which backoff-sleeps and retries if attempts
remain, else returns `none`; status < 400 → success; the three exception
events → backoff-sleep and retry if attempts remain, else `none`. -/
def retryLoop (c : HTTPClient) (transport : Nat → TransportEvent) :
    Nat → Nat → List Nat → Option Nat × List Nat
  | 0, _, sleeps => (none, sleeps)
  | remaining + 1, attempt, sleeps =>
    match transport attempt with
    | .status code =>
      if code = 429 then
        retryLoop c transport remaining (attempt + 1)
          (sleeps ++ [c.rate_limit_delay * attempt])
      else if 500 ≤ code ∧ code < 600 then
        if 0 < remaining then
          retryLoop c transport remaining (attempt + 1) (sleeps ++ [backoffDelay c attempt])
        else (none, sleeps)
      else if 400 ≤ code ∧ code < 500 then
        if 0 < remaining then
          retryLoop c transport remaining (attempt + 1) (sleeps ++ [backoffDelay c attempt])
        else (none, sleeps)
      else (some code, sleeps)
    | .timeout =>
      if 0 < remaining then
        retryLoop c transport remaining (attempt + 1) (sleeps ++ [backoffDelay c attempt])
      else (none, sleeps)
    | .connError =>
      if 0 < remaining then
        retryLoop c transport remaining (attempt + 1) (sleeps ++ [backoffDelay c attempt])
      else (none, sleeps)
    | .reqError =>
      if 0 < remaining then
        retryLoop c transport remaining (attempt + 1) (sleeps ++ [backoffDelay c attempt])
      else (none, sleeps)

/-- post_with_retry from `http_client.py`: attempt numbering starts at 1,
`remaining = max_retries − attempt + 1` counts the loop iterations still
available, so `attempt < max_retries` of the source is `0 < remaining`
inside an iteration. -/
def post_with_retry (c : HTTPClient) (transport : Nat → TransportEvent) :
    Option Nat × List Nat :=
  retryLoop c transport c.max_retries 1 []

/-- One row of the `lot_details` table (`database.py` schema): source
tracking, the 12 parsed columns, and the status metadata (the autoincrement
id and `scraped_at` are the list position / an external default and are not
modelled). -/
structure LotRow where
  lot_url : String
  data_lot_id : String
  announce_id : String
  lot_number : Option String
  lot_status : Option String
  customer_bin : Option String
  customer_name : Option String
  tru_code : Option String
  tru_name : Option String
  brief_description : Option String
  additional_description : Option String
  price_per_unit : Option String
  unit_of_measurement : Option String
  quantity : Option String
  delivery_location_kato : Option String
  parse_status : String
  error_message : Option String
deriving Repr, DecidableEq

/-- Python `parsed_data.get(key)` on an Optional-valued dict: the stored
value when the key is present (itself possibly null), `None` otherwise. -/
def dictGet (d : List (String × Option String)) (key : String) : Option String :=
  match d.find? (fun p => p.1 == key) with
  | some p => p.2
  | none => none

/-- The row the INSERT of `Database.insert_lot_detail` writes, built from the
call arguments via `parsed_data.get(...)` per column. -/
def mkLotRow (lot_url data_lot_id announce_id : String)
    (parsed_data : List (String × Option String)) (parse_status : String)
    (error_message : Option String) : LotRow where
  lot_url := lot_url
  data_lot_id := data_lot_id
  announce_id := announce_id
  lot_number := dictGet parsed_data "lot_number"
  lot_status := dictGet parsed_data "lot_status"
  customer_bin := dictGet parsed_data "customer_bin"
  customer_name := dictGet parsed_data "customer_name"
  tru_code := dictGet parsed_data "tru_code"
  tru_name := dictGet parsed_data "tru_name"
  brief_description := dictGet parsed_data "brief_description"
  additional_description := dictGet parsed_data "additional_description"
  price_per_unit := dictGet parsed_data "price_per_unit"
  unit_of_measurement := dictGet parsed_data "unit_of_measurement"
  quantity := dictGet parsed_data "quantity"
  delivery_location_kato := dictGet parsed_data "delivery_location_kato"
  parse_status := parse_status
  error_message := error_message

/-- Whether `lot_details` already holds a row with this
`UNIQUE(lot_url, data_lot_id)` key. -/
def hasLotKey (lot_details : List LotRow) (lot_url data_lot_id : String) : Bool :=
  lot_details.any (fun r => r.lot_url == lot_url && r.data_lot_id == data_lot_id)

/-- Database.insert_lot_detail from `database.py`: attempt the INSERT; the
`UNIQUE(lot_url, data_lot_id)` constraint makes a duplicate key raise
`sqlite3.IntegrityError`, which the source catches and turns into `False`
with the transaction rolled back (table unchanged); a fresh key appends the
row and returns `True`. -/
def insert_lot_detail (lot_details : List LotRow) (lot_url data_lot_id announce_id : String)
    (parsed_data : List (String × Option String)) (parse_status : String)
    (error_message : Option String) : Bool × List LotRow :=
  if hasLotKey lot_details lot_url data_lot_id then (false, lot_details)
  else (true,
    lot_details ++ [mkLotRow lot_url data_lot_id announce_id parsed_data parse_status error_message])

/-- One row of the `scraping_progress` table (`database.py` schema). -/
structure ProgressRow where
  lot_url : String
  announce_id : String
  status : String
  lot_ids_found : Nat
  lot_ids_processed : Nat
  started_at : Option Nat
  completed_at : Option Nat
  error_count : Nat
  last_error : Option String
deriving Repr, DecidableEq

/-- SELECT of the progress row keyed by `lot_url` (the column is UNIQUE; on a
list that is the first matching row). -/
def findProgress (progress : List ProgressRow) (lot_url : String) : Option ProgressRow :=
  progress.find? (fun r => r.lot_url == lot_url)

/-- Database.get_or_create_progress: return the existing row, or insert and
return a fresh one with status `'pending'`, `started_at = now`, counters at
their column defaults. -/
def get_or_create_progress (progress : List ProgressRow) (lot_url announce_id : String)
    (now : Nat) : ProgressRow × List ProgressRow :=
  match findProgress progress lot_url with
  | some row => (row, progress)
  | none =>
    let row : ProgressRow :=
      ⟨lot_url, announce_id, "pending", 0, 0, some now, none, 0, none⟩
    (row, progress ++ [row])

/-- The per-row effect of the UPDATE built by `Database.update_progress`.
`if status:` is Python truthiness (both `None` and `""` skip the status
update); the nested stamps are `started_at = now` when
`status == 'processing' and lot_ids_found is None`, and `completed_at = now`
when `status == 'completed'`; each remaining column is set iff its argument
`is not None`. -/
def applyProgressUpdate (r : ProgressRow) (status : Option String)
    (lot_ids_found lot_ids_processed error_count : Option Nat)
    (last_error : Option String) (now : Nat) : ProgressRow :=
  let r1 :=
    match status with
    | some s =>
      if s = "" then r
      else
        let rs := { r with status := s }
        if s = "processing" ∧ lot_ids_found = none then { rs with started_at := some now }
        else if s = "completed" then { rs with completed_at := some now }
        else rs
    | none => r
  let r2 := match lot_ids_found with
    | some v => { r1 with lot_ids_found := v }
    | none => r1
  let r3 := match lot_ids_processed with
    | some v => { r2 with lot_ids_processed := v }
    | none => r2
  let r4 := match error_count with
    | some v => { r3 with error_count := v }
    | none => r3
  match last_error with
  | some v => { r4 with last_error := some v }
  | none => r4

/-- Database.update_progress from `database.py`: sparse
`UPDATE scraping_progress SET ... WHERE lot_url = ?` (a no-op when no
column is selected, which coincides with mapping the identity). -/
def update_progress (progress : List ProgressRow) (lot_url : String)
    (status : Option String) (lot_ids_found lot_ids_processed error_count : Option Nat)
    (last_error : Option String) (now : Nat) : List ProgressRow :=
  progress.map (fun r =>
    if r.lot_url = lot_url then
      applyProgressUpdate r status lot_ids_found lot_ids_processed error_count last_error now
    else r)

/-- Database.get_pending_urls:
`SELECT lot_url FROM scraping_progress WHERE status IN ('pending','failed')
ORDER BY id` — insertion order on the list model. -/
def get_pending_urls (progress : List ProgressRow) : List String :=
  (progress.filter (fun r => r.status == "pending" || r.status == "failed")).map
    (fun r => r.lot_url)

/-- Database.increment_processed:
`SET lot_ids_processed = lot_ids_processed + 1 WHERE lot_url = ?`. -/
def increment_processed (progress : List ProgressRow) (lot_url : String) :
    List ProgressRow :=
  progress.map (fun r =>
    if r.lot_url = lot_url then { r with lot_ids_processed := r.lot_ids_processed + 1 }
    else r)

/-- Combined database state of the orchestrator (`main.py`). -/
structure DBState where
  lot_details : List LotRow
  progress : List ProgressRow
deriving Repr, DecidableEq

/-- Run-scoped counters `self.stats` of `TenderParser`. -/
structure RunStats where
  urls_processed : Nat
  lots_found : Nat
  lots_saved : Nat
  lots_failed : Nat
deriving Repr, DecidableEq

/-- Network environment of one announcement URL: `listingPage` is the result
of `get_lot_ids_page` abstracted to the `data-lot-id` attribute values of
the fetched markup (`none` covers a failed fetch and an empty body, both
falsy in `if not html_content`); `lotDetail lot_id` likewise abstracts
`get_lot_detail` to the (header, value) row pairs of the fragment. -/
structure FetchEnv where
  listingPage : Option (List String)
  lotDetail : String → Option (List (String × String))

/-- TenderParser.process_lot from `main.py`: fetch the detail fragment
(failure counts `lots_failed`), parse it, classify, insert; a successful
insert bumps `lots_saved` and `lot_ids_processed`, a duplicate is skipped
silently. -/
def process_lot (db : DBState) (stats : RunStats)
    (announce_url announce_id lot_id : String)
    (detail : Option (List (String × String))) : DBState × RunStats :=
  match detail with
  | none => (db, { stats with lots_failed := stats.lots_failed + 1 })
  | some rows =>
    let parsed_data := parse_lot_table rows
    let ps := determine_parse_status parsed_data
    let ins := insert_lot_detail db.lot_details announce_url lot_id announce_id parsed_data ps.1 ps.2
    if ins.1 then
      ({ lot_details := ins.2, progress := increment_processed db.progress announce_url },
       { stats with lots_saved := stats.lots_saved + 1 })
    else (db, stats)

/-- The `for lot_id in lot_ids` loop of `TenderParser.process_url`:
`shutdownAt k` is the value of `self.shutdown_requested` observed at the
check before the k-th lot (0-based); a true check breaks out of the loop. -/
def lotLoop (env : FetchEnv) (shutdownAt : Nat → Bool)
    (announce_url announce_id : String) :
    List String → Nat → DBState → RunStats → DBState × RunStats
  | [], _, db, stats => (db, stats)
  | lot_id :: rest, k, db, stats =>
    if shutdownAt k then (db, stats)
    else
      let r := process_lot db stats announce_url announce_id lot_id (env.lotDetail lot_id)
      lotLoop env shutdownAt announce_url announce_id rest (k + 1) r.1 r.2

/-- The non-skip path of `TenderParser.process_url` (everything after the
completed-and-resume check): mark processing, fetch the listing page
(failure → status `'failed'` with the fixed message), extract lot IDs
(empty → status `'completed'` with zero counters), else record
`lot_ids_found`, run the lot loop, and mark `'completed'` regardless of
whether the loop finished or was broken by a shutdown request. -/
def process_url_body (env : FetchEnv) (shutdownAt : Nat → Bool)
    (announce_url announce_id : String) (now : Nat)
    (db : DBState) (stats : RunStats) : DBState × RunStats :=
  let db1 : DBState :=
    { db with progress := (update_progress db.progress announce_url
        (some "processing") none none none none now) }
  match env.listingPage with
  | none =>
    ({ db1 with progress := (update_progress db1.progress announce_url
        (some "failed") none none none (some "Failed to fetch lot IDs page") now) }, stats)
  | some attrs =>
    let lot_ids := extract_lot_ids attrs
    if lot_ids = [] then
      ({ db1 with progress := (update_progress db1.progress announce_url
          (some "completed") (some 0) (some 0) none none now) }, stats)
    else
      let db2 : DBState :=
        { db1 with progress := (update_progress db1.progress announce_url
            none (some lot_ids.length) none none none now) }
      let stats2 := { stats with lots_found := stats.lots_found + lot_ids.length }
      let r := lotLoop env shutdownAt announce_url announce_id lot_ids 0 db2 stats2
      ({ r.1 with progress := (update_progress r.1.progress announce_url
          (some "completed") none none none none now) },
       { r.2 with urls_processed := r.2.urls_processed + 1 })

/-- TenderParser.process_url from `main.py`: extract the announce id
(`if not announce_id` — a missing id or an empty one returns untouched, by
Python truthiness), get-or-create the progress row, skip entirely when its
status is already `'completed'` and resume mode is on, else run the body. -/
def process_url (resume : Bool) (env : FetchEnv) (shutdownAt : Nat → Bool)
    (announce_url : String) (now : Nat) (db : DBState) (stats : RunStats) :
    DBState × RunStats :=
  match extract_announce_id announce_url with
  | none => (db, stats)
  | some announce_id =>
    if announce_id = "" then (db, stats)
    else
      let gc := get_or_create_progress db.progress announce_url announce_id now
      let db1 : DBState := { db with progress := gc.2 }
      if gc.1.status = "completed" ∧ resume then (db1, stats)
      else process_url_body env shutdownAt announce_url announce_id now db1 stats

/-- The `for i, url in enumerate(url_iterator)` loop of `TenderParser.run`:
`urlEnv` gives each URL its network environment, `shutdownAtUrl i` the
shutdown flag observed before the i-th URL, `shutdownAtLot i k` the flag
observed inside its lot loop. -/
def runUrls (resume : Bool) (urlEnv : String → FetchEnv)
    (shutdownAtUrl : Nat → Bool) (shutdownAtLot : Nat → Nat → Bool) (now : Nat) :
    List String → Nat → DBState → RunStats → DBState × RunStats
  | [], _, db, stats => (db, stats)
  | url :: rest, i, db, stats =>
    if shutdownAtUrl i then (db, stats)
    else
      let r := process_url resume (urlEnv url) (shutdownAtLot i) url now db stats
      runUrls resume urlEnv shutdownAtUrl shutdownAtLot now rest (i + 1) r.1 r.2

/-- TenderParser.load_urls from `main.py`, with the JSON file abstracted to
its `links` array (the fatal missing-file/bad-JSON exits are outside the
model): in resume mode with a non-empty pending set, keep the URLs passing
`url in pending or url not in pending`; then apply
`if self.max_urls and len(urls) > self.max_urls: urls = urls[:self.max_urls]`
(Python truthiness: `max_urls = 0` disables the limit). -/
def load_urls (resume : Bool) (progress : List ProgressRow) (links : List String)
    (max_urls : Option Nat) : List String :=
  let urls := links
  let urls :=
    if resume then
      let pending := get_pending_urls progress
      if pending ≠ [] then
        urls.filter (fun url => pending.contains url || !(pending.contains url))
      else urls
    else urls
  match max_urls with
  | some m => if m ≠ 0 ∧ urls.length > m then urls.take m else urls
  | none => urls

/-- Outcome of navigating to one listing page in `scraper.py`: `err` covers
a navigation exception, a 404, and any status ≥ 400 (all of which
`scrape_page` turns into 0 new links before `pages_scraped` is bumped);
`ok hrefs` gives the `href` attribute values of the elements matched by the
link selector, already resolved to absolute URLs (`urljoin` abstracted). -/
inductive PageOutcome
  | err
  | ok (hrefs : List String)
deriving Repr, DecidableEq

/-- Python truthiness guard `if max_links and len(all_links) >= max_links`
(`None` and `0` both disable the cap). -/
def capReached (max_links : Option Nat) (n : Nat) : Bool :=
  match max_links with
  | some k => decide (k ≠ 0) && decide (k ≤ n)
  | none => false

/-- GoszakupScraper.extract_links from `scraper.py` over the matched `href`
values: before each element stop if the cap is reached; keep an href iff it
is truthy (non-empty) and not yet in the accumulated set; after adding,
stop if the cap is now reached.  Returns (new_links, updated set); the set
is modelled as the list of members in insertion order. -/
def extract_links (max_links : Option Nat) (all_links : List String) :
    List String → List String × List String
  | [] => ([], all_links)
  | href :: rest =>
    if capReached max_links all_links.length then ([], all_links)
    else if href ≠ "" ∧ href ∉ all_links then
      let all' := all_links ++ [href]
      if capReached max_links all'.length then ([href], all')
      else
        let r := extract_links max_links all' rest
        (href :: r.1, r.2)
    else extract_links max_links all_links rest

/-- The link outcome of `GoszakupScraper.scrape_page`: (new links found,
updated accumulated set).  An error page yields no links and leaves the
set untouched. -/
def pageNewLinks (max_links : Option Nat) (outcome : PageOutcome)
    (all_links : List String) : List String × List String :=
  match outcome with
  | .err => ([], all_links)
  | .ok hrefs => extract_links max_links all_links hrefs

/-- Result of the `while True` loop of `GoszakupScraper.run`: the page
numbers actually scraped, the final accumulated link set, and the final
`pages_scraped` counter. -/
structure ScrapeResult where
  trace : List Nat
  all_links : List String
  pages_scraped : Nat
deriving Repr, DecidableEq

/-- The `while True` loop of `GoszakupScraper.run` (fuel-indexed, since the
source loop has no a-priori bound): per iteration — cap check and break;
scrape the page (`pages` is the navigation oracle; `pages_scraped` is
bumped only on a non-error page); on zero new links bump the
consecutive-empty counter and break when it reaches
`max_consecutive_empty = 3`, a non-empty page resets it; checkpoint saves
are I/O and not modelled; cap re-check and break; bump the page number. -/
def scraperLoop (max_links : Option Nat) (pages : Nat → PageOutcome) :
    Nat → Nat → Nat → List String → Nat → ScrapeResult
  | 0, _, _, all_links, pages_scraped => ⟨[], all_links, pages_scraped⟩
  | fuel + 1, page_num, consecutive_empty, all_links, pages_scraped =>
    if capReached max_links all_links.length then ⟨[], all_links, pages_scraped⟩
    else
      let pn := pageNewLinks max_links (pages page_num) all_links
      let scraped' := match pages page_num with
        | .err => pages_scraped
        | .ok _ => pages_scraped + 1
      if pn.1.length = 0 ∧ 3 ≤ consecutive_empty + 1 then
        ⟨[page_num], pn.2, scraped'⟩
      else
        let consecutive' := if pn.1.length = 0 then consecutive_empty + 1 else 0
        if capReached max_links pn.2.length then ⟨[page_num], pn.2, scraped'⟩
        else
          let r := scraperLoop max_links pages fuel (page_num + 1) consecutive' pn.2 scraped'
          ⟨page_num :: r.trace, r.all_links, r.pages_scraped⟩

/-! ## Theorems -/

/-- All-null field mapping over the 12 schema keys. -/
def pdNone : List (String × Option String) :=
  FIELD_MAPPING.map (fun p => (p.2, (none : Option String)))

/-- Field mapping over the 12 schema keys with exactly 7 non-null values. -/
def pdSeven : List (String × Option String) :=
  [("lot_number", some "1"), ("lot_status", some "s"), ("customer_bin", some "b"),
   ("customer_name", some "c"), ("tru_code", some "t"), ("tru_name", some "n"),
   ("brief_description", some "d"), ("additional_description", none),
   ("price_per_unit", none), ("unit_of_measurement", none), ("quantity", none),
   ("delivery_location_kato", none)]

/-- Field mapping over the 12 schema keys with all values non-null. -/
def pdAll : List (String × Option String) :=
  FIELD_MAPPING.map (fun p => (p.2, some "x"))

/-- C4: for every mapping over the 12 field keys, `determine_parse_status`
returns `failed` with the no-fields message at 0 filled fields, `partial`
with a message naming the missing-field count at 1..11 filled fields, and
`success` with no message at 12 filled fields; the filled count can never
exceed 12 on such a mapping, so the three cases are exhaustive. -/
theorem determine_parse_status_tri_state (parsed_data : List (String × Option String))
    (hkeys : parsed_data.map Prod.fst = FIELD_MAPPING.map Prod.snd) :
    filledFields parsed_data ≤ 12
    ∧ (filledFields parsed_data = 0 →
      determine_parse_status parsed_data = ("failed", some "No fields could be parsed"))
    ∧ (1 ≤ filledFields parsed_data → filledFields parsed_data ≤ 11 →
      determine_parse_status parsed_data =
        ("partial", some ("Only " ++ toString (filledFields parsed_data) ++ "/"
          ++ toString (12 : Nat) ++ " fields parsed ("
          ++ toString (12 - filledFields parsed_data) ++ " missing)")))
    ∧ (filledFields parsed_data = 12 →
      determine_parse_status parsed_data = ("success", none)) := by
  have hlen : parsed_data.length = 12 := by
    have h := congrArg List.length hkeys
    simpa using h
  have hbound : filledFields parsed_data ≤ 12 := by
    have h := List.length_filter_le (fun p : String × Option String => p.2.isSome) parsed_data
    rw [filledFields]
    omega
  have hFM : FIELD_MAPPING.length = 12 := by rfl
  refine ⟨hbound, ?_, ?_, ?_⟩
  · intro h0
    simp [determine_parse_status, h0]
  · intro h1 h2
    have hne : ¬ filledFields parsed_data = 0 := by omega
    have hlt : filledFields parsed_data < FIELD_MAPPING.length := by omega
    simp only [determine_parse_status, if_neg hne, if_pos hlt, hFM]
    rw [if_pos (show filledFields parsed_data < 12 by omega)]
  · intro h12
    have hne : ¬ filledFields parsed_data = 0 := by omega
    have hnlt : ¬ filledFields parsed_data < FIELD_MAPPING.length := by omega
    simp [determine_parse_status, hne, hnlt]

/-- Witness for C4 at the three boundary inputs: an all-null mapping, a
7-of-12 mapping (message names the 5 missing fields), and an all-filled
mapping. -/
theorem determine_parse_status_tri_state_witness :
    determine_parse_status pdNone = ("failed", some "No fields could be parsed")
    ∧ determine_parse_status pdSeven
      = ("partial", some "Only 7/12 fields parsed (5 missing)")
    ∧ determine_parse_status pdAll = ("success", none) := by
  refine ⟨(determine_parse_status_tri_state pdNone (by decide)).2.1 (by decide), ?_, ?_⟩
  · have h := (determine_parse_status_tri_state pdSeven (by decide)).2.2.1
      (by decide) (by decide)
    exact h
  · exact (determine_parse_status_tri_state pdAll (by decide)).2.2.2 (by decide)

/-- The dedup loop equals first-seen deduplication of the values that are
non-empty and not in the initial `seen` set. -/
theorem dedupLotIds_eq_firstSeenDedup (l : List String) :
    ∀ seen : List String,
      dedupLotIds seen l
        = firstSeenDedup (l.filter (fun s => decide (s ≠ "" ∧ s ∉ seen))) := by
  induction l with
  | nil => intro seen; simp [dedupLotIds, firstSeenDedup]
  | cons x rest ih =>
    intro seen
    by_cases hx : x ≠ "" ∧ x ∉ seen
    · have hfx : decide (x ≠ "" ∧ x ∉ seen) = true := by simpa using hx
      rw [dedupLotIds, if_pos hx, ih (x :: seen), List.filter_cons, hfx]
      simp only [if_true, firstSeenDedup]
      congr 1
      rw [List.filter_filter]
      congr 1
      apply List.filter_congr
      intro a _
      rw [← Bool.decide_and, decide_eq_decide]
      simp only [List.mem_cons, not_or]
      tauto
    · have hfx : decide (x ≠ "" ∧ x ∉ seen) = false := by simpa using hx
      rw [dedupLotIds, if_neg hx, ih seen, List.filter_cons, hfx]
      simp

/-- C5: `extract_lot_ids` (a total function of the attribute-value list: it
never raises, and markup carrying no lot-id attribute gives the empty
list) returns the non-empty attribute values deduplicated preserving
first-occurrence order: it refines `firstSeenDedup` of the non-empty
values, and on `["5","3","5","7"]` it yields `["5","3","7"]`. -/
theorem extract_lot_ids_first_seen_dedup :
    (∀ lot_ids : List String,
      extract_lot_ids lot_ids
        = firstSeenDedup (lot_ids.filter (fun s => decide (s ≠ ""))))
    ∧ extract_lot_ids ["5", "3", "5", "7"] = ["5", "3", "7"]
    ∧ extract_lot_ids [] = [] := by
  refine ⟨?_, by decide, by decide⟩
  intro lot_ids
  rw [extract_lot_ids, dedupLotIds_eq_firstSeenDedup lot_ids []]
  congr 1
  apply List.filter_congr
  intro a _
  rw [decide_eq_decide]
  simp

/-- C1: inserting a fresh (lot_url, data_lot_id) pair returns `true`;
re-inserting the same pair (with any other arguments) returns `false`
without raising (the IntegrityError path is a total return of `false`) and
leaves the table unchanged, so exactly one stored record carries the key
and its columns are those of the first insert. -/
theorem insert_lot_detail_unique_pair (db : List LotRow) (u i a₁ a₂ : String)
    (pd₁ pd₂ : List (String × Option String)) (ps₁ ps₂ : String)
    (em₁ em₂ : Option String)
    (hfresh : hasLotKey db u i = false) :
    (insert_lot_detail db u i a₁ pd₁ ps₁ em₁).1 = true
    ∧ (insert_lot_detail (insert_lot_detail db u i a₁ pd₁ ps₁ em₁).2
        u i a₂ pd₂ ps₂ em₂).1 = false
    ∧ (insert_lot_detail (insert_lot_detail db u i a₁ pd₁ ps₁ em₁).2
        u i a₂ pd₂ ps₂ em₂).2 = (insert_lot_detail db u i a₁ pd₁ ps₁ em₁).2
    ∧ (insert_lot_detail db u i a₁ pd₁ ps₁ em₁).2.filter
        (fun r => r.lot_url == u && r.data_lot_id == i)
      = [mkLotRow u i a₁ pd₁ ps₁ em₁] := by
  have h1 : insert_lot_detail db u i a₁ pd₁ ps₁ em₁
      = (true, db ++ [mkLotRow u i a₁ pd₁ ps₁ em₁]) := by
    rw [insert_lot_detail, hfresh]
    simp
  have hrow : (mkLotRow u i a₁ pd₁ ps₁ em₁).lot_url = u
      ∧ (mkLotRow u i a₁ pd₁ ps₁ em₁).data_lot_id = i := ⟨rfl, rfl⟩
  have h2 : hasLotKey (db ++ [mkLotRow u i a₁ pd₁ ps₁ em₁]) u i = true := by
    rw [hasLotKey, List.any_append]
    simp [hrow.1, hrow.2]
  have hfresh' : db.any (fun r => r.lot_url == u && r.data_lot_id == i) = false := hfresh
  have hnone : ∀ r ∈ db, ¬(r.lot_url == u && r.data_lot_id == i) = true :=
    List.any_eq_false.mp hfresh'
  refine ⟨by rw [h1], ?_, ?_, ?_⟩
  · rw [h1, insert_lot_detail, h2]
    simp
  · rw [h1, insert_lot_detail, h2]
    simp
  · rw [h1]
    rw [List.filter_append]
    have hdb : db.filter (fun r => r.lot_url == u && r.data_lot_id == i) = [] :=
      List.filter_eq_nil_iff.mpr hnone
    rw [hdb]
    simp [hrow.1, hrow.2]

/-- Witness for C1: double insert of the pair ("u", "1") into the empty
table. -/
theorem insert_lot_detail_unique_pair_witness :
    (insert_lot_detail [] "u" "1" "a" [] "success" none).1 = true
    ∧ (insert_lot_detail (insert_lot_detail [] "u" "1" "a" [] "success" none).2
        "u" "1" "b" [("lot_number", some "9")] "failed" (some "e")).1 = false
    ∧ (insert_lot_detail (insert_lot_detail [] "u" "1" "a" [] "success" none).2
        "u" "1" "b" [("lot_number", some "9")] "failed" (some "e")).2
      = (insert_lot_detail [] "u" "1" "a" [] "success" none).2
    ∧ (insert_lot_detail [] "u" "1" "a" [] "success" none).2.filter
        (fun r => r.lot_url == "u" && r.data_lot_id == "1")
      = [mkLotRow "u" "1" "a" [] "success" none] :=
  insert_lot_detail_unique_pair [] "u" "1" "a" "b" [] [("lot_number", some "9")]
    "success" "failed" none (some "e") (by decide)

/-- C10: the resume-mode filter of `load_urls` keeps a URL iff it is in the
pending set or not in the pending set — a tautology — so for every resume
flag and progress-store content the returned list is exactly the input
`links` in order, subject only to the `max_urls` truncation (which Python
truthiness disables at `max_urls = 0`). -/
theorem load_urls_resume_filter_tautology :
    ∀ (resume : Bool) (progress : List ProgressRow) (links : List String)
      (max_urls : Option Nat),
      load_urls resume progress links max_urls =
        match max_urls with
        | some m => if m ≠ 0 ∧ links.length > m then links.take m else links
        | none => links := by
  intro resume progress links max_urls
  have hfil : ∀ pending : List String,
      links.filter (fun url => pending.contains url || !(pending.contains url)) = links := by
    intro pending
    apply List.filter_eq_self.mpr
    intro a _
    exact Bool.or_not_self _
  unfold load_urls
  cases resume
  · rfl
  · simp only [eq_self_iff_true, if_true]
    by_cases hp : get_pending_urls progress ≠ []
    · rw [if_pos hp, hfil]
    · rw [if_neg hp]

/-- C3 counterexample: with the configured client, a transport that always
answers 404 makes `post_with_retry` sleep backoff delays 3 and 6 and retry
across all three attempts before returning `none` — not an immediate
first-attempt failure with no sleep — and the result is identical to the
one produced by a transport that always times out (a transient class), not
distinct from it. -/
theorem post_with_retry_404_counterexample :
    post_with_retry defaultClient (fun _ => TransportEvent.status 404) = (none, [3, 6])
    ∧ ([3, 6] : List Nat) ≠ []
    ∧ post_with_retry defaultClient (fun _ => TransportEvent.timeout) = (none, [3, 6]) :=
  ⟨by decide, by decide, by decide⟩

/-- C3 (amended): a 4xx status other than 429 raises `HTTPError` via
`raise_for_status()`, which the generic `RequestException` handler catches,
so it is retried with exponential backoff exactly like the transient
classes (with the configured client: sleeps 3 then 6 across 3 attempts)
and ends in the same failure value `none`, rather than failing immediately
on the first attempt. -/
theorem post_with_retry_4xx_retries (code : Nat) (h1 : 400 ≤ code) (h2 : code < 500)
    (h3 : code ≠ 429) :
    post_with_retry defaultClient (fun _ => TransportEvent.status code) = (none, [3, 6]) := by
  have h5 : ¬(500 ≤ code ∧ code < 600) := by omega
  have h4 : 400 ≤ code ∧ code < 500 := ⟨h1, h2⟩
  show retryLoop defaultClient _ 3 1 [] = (none, [3, 6])
  rw [retryLoop]
  simp only [if_neg h3, if_neg h5, if_pos h4]
  rw [if_pos (by decide : (0 : Nat) < 2), retryLoop]
  simp only [if_neg h3, if_neg h5, if_pos h4]
  rw [if_pos (by decide : (0 : Nat) < 1), retryLoop]
  simp only [if_neg h3, if_neg h5, if_pos h4]
  rw [if_neg (by decide : ¬(0 : Nat) < 0)]
  rfl

/-- Witness for the amended C3 at code 404. -/
theorem post_with_retry_4xx_retries_witness :
    post_with_retry defaultClient (fun _ => TransportEvent.status 404) = (none, [3, 6]) :=
  post_with_retry_4xx_retries 404 (by decide) (by decide) (by decide)

/-- Exhausting the attempt budget on permanent 429 answers always yields
the failure value `none` (never an exception), for every client
configuration, attempt number and sleep log. -/
theorem retryLoop_429_all (c : HTTPClient) (t : Nat → TransportEvent)
    (ha : ∀ a, t a = TransportEvent.status 429) :
    ∀ (remaining attempt : Nat) (sleeps : List Nat),
      (retryLoop c t remaining attempt sleeps).1 = none := by
  intro remaining
  induction remaining with
  | zero => intro attempt sleeps; rfl
  | succ n ih =>
    intro attempt sleeps
    rw [retryLoop, ha attempt]
    simp only [if_pos rfl]
    exact ih _ _

/-- C6: with any client allowing at least 3 attempts, a transport that
answers 429 on attempts 1 and 2 and 200 on attempt 3 makes
`post_with_retry` return the successful response on attempt 3 having slept
`rate_limit_delay × 1` then `rate_limit_delay × 2`; and a transport that
answers 429 on every attempt exhausts the budget and yields the failure
value `none`, not an exception. -/
theorem post_with_retry_429_twice_then_success (c : HTTPClient)
    (t2 talways : Nat → TransportEvent) (hmax : 3 ≤ c.max_retries)
    (ht1 : t2 1 = TransportEvent.status 429) (ht2 : t2 2 = TransportEvent.status 429)
    (ht3 : t2 3 = TransportEvent.status 200)
    (ha : ∀ a, talways a = TransportEvent.status 429) :
    post_with_retry c t2 = (some 200, [c.rate_limit_delay * 1, c.rate_limit_delay * 2])
    ∧ (post_with_retry c talways).1 = none := by
  constructor
  · obtain ⟨k, hk⟩ : ∃ k, c.max_retries = k + 3 := ⟨c.max_retries - 3, by omega⟩
    rw [post_with_retry, hk]
    rw [show k + 3 = (k + 2) + 1 by omega, retryLoop, ht1]
    simp only [if_pos rfl]
    rw [show k + 2 = (k + 1) + 1 by omega, retryLoop, ht2]
    simp only [if_pos rfl]
    rw [retryLoop, ht3]
    norm_num
  · exact retryLoop_429_all c talways ha c.max_retries 1 []

/-- Witness for C6 with the configured client: sleeps 10 then 20, succeeds
with status 200; permanent 429 yields `none`. -/
theorem post_with_retry_429_twice_then_success_witness :
    post_with_retry defaultClient
        (fun a => if a ≤ 2 then TransportEvent.status 429 else TransportEvent.status 200)
      = (some 200, [10 * 1, 10 * 2])
    ∧ (post_with_retry defaultClient (fun _ => TransportEvent.status 429)).1 = none :=
  post_with_retry_429_twice_then_success defaultClient
    (fun a => if a ≤ 2 then TransportEvent.status 429 else TransportEvent.status 200)
    (fun _ => TransportEvent.status 429)
    (by decide) (by decide) (by decide) (by decide) (fun _ => rfl)

/-- C8 counterexample: a row whose `started_at` was stamped at instant 5
(e.g. by the first `processing` transition of a run that later failed) has
it overwritten to instant 9 by a later retry that sets status
`'processing'` again — the original `started_at` is not preserved, because
the source guards the stamp on `lot_ids_found is None` (an argument of the
same call), not on first-time status entry. -/
theorem update_progress_restamp_counterexample :
    update_progress [⟨"u", "a", "failed", 4, 2, some 5, none, 1, none⟩] "u"
        (some "processing") none none none none 9
      = [⟨"u", "a", "processing", 4, 2, some 9, none, 1, none⟩]
    ∧ (some 9 : Option Nat) ≠ some 5 :=
  ⟨by decide, by decide⟩

/-- C8 (amended): `update_progress` is a sparse update — for the updated
row, fields whose argument is not passed keep their value; setting status
to `'processing'` stamps `started_at := now` on every such call in which
`lot_ids_found` is not passed alongside (overwriting any earlier stamp,
not only the first time); setting status to `'completed'` stamps
`completed_at := now`; the counters and `last_error` update to the passed
values independently of whether status is passed; rows keyed by another
URL are untouched. -/
theorem update_progress_sparse (r : ProgressRow) (s : Option String)
    (f p e : Option Nat) (le : Option String) (now : Nat) :
    ((s = none →
        (applyProgressUpdate r s f p e le now).status = r.status
        ∧ (applyProgressUpdate r s f p e le now).started_at = r.started_at
        ∧ (applyProgressUpdate r s f p e le now).completed_at = r.completed_at)
    ∧ (f = none →
        (applyProgressUpdate r s f p e le now).lot_ids_found = r.lot_ids_found)
    ∧ (p = none →
        (applyProgressUpdate r s f p e le now).lot_ids_processed = r.lot_ids_processed)
    ∧ (e = none →
        (applyProgressUpdate r s f p e le now).error_count = r.error_count)
    ∧ (le = none →
        (applyProgressUpdate r s f p e le now).last_error = r.last_error))
    ∧ (s = some "processing" → f = none →
        (applyProgressUpdate r s f p e le now).status = "processing"
        ∧ (applyProgressUpdate r s f p e le now).started_at = some now)
    ∧ (s = some "completed" →
        (applyProgressUpdate r s f p e le now).status = "completed"
        ∧ (applyProgressUpdate r s f p e le now).completed_at = some now)
    ∧ (∀ v, f = some v → (applyProgressUpdate r s f p e le now).lot_ids_found = v)
    ∧ (∀ v, p = some v → (applyProgressUpdate r s f p e le now).lot_ids_processed = v)
    ∧ (∀ v, e = some v → (applyProgressUpdate r s f p e le now).error_count = v)
    ∧ (∀ v, le = some v → (applyProgressUpdate r s f p e le now).last_error = some v)
    ∧ (∀ (l : List ProgressRow) (url : String) (r' : ProgressRow), r' ∈ l →
        r'.lot_url ≠ url → r' ∈ update_progress l url s f p e le now) := by
  constructor
  · refine ⟨?_, ?_, ?_, ?_, ?_⟩
    · rintro rfl
      cases f <;> cases p <;> cases e <;> cases le <;>
        simp [applyProgressUpdate]
    · rintro rfl
      cases s with
      | none => cases p <;> cases e <;> cases le <;> simp [applyProgressUpdate]
      | some sv =>
        by_cases hsv : sv = ""
        · subst hsv; cases p <;> cases e <;> cases le <;> simp [applyProgressUpdate]
        · by_cases hproc : sv = "processing"
          · subst hproc
            cases p <;> cases e <;> cases le <;>
              simp [applyProgressUpdate, hsv]
          · by_cases hcomp : sv = "completed"
            · subst hcomp
              cases p <;> cases e <;> cases le <;>
                simp [applyProgressUpdate, hsv]
            · cases p <;> cases e <;> cases le <;>
                simp [applyProgressUpdate, hsv, hproc, hcomp]
    · rintro rfl
      cases s with
      | none => cases f <;> cases e <;> cases le <;> simp [applyProgressUpdate]
      | some sv =>
        by_cases hsv : sv = ""
        · subst hsv; cases f <;> cases e <;> cases le <;> simp [applyProgressUpdate]
        · by_cases hproc : sv = "processing"
          · subst hproc
            cases f <;> cases e <;> cases le <;>
              simp [applyProgressUpdate, hsv]
          · by_cases hcomp : sv = "completed"
            · subst hcomp
              cases f <;> cases e <;> cases le <;>
                simp [applyProgressUpdate, hsv]
            · cases f <;> cases e <;> cases le <;>
                simp [applyProgressUpdate, hsv, hproc, hcomp]
    · rintro rfl
      cases s with
      | none => cases f <;> cases p <;> cases le <;> simp [applyProgressUpdate]
      | some sv =>
        by_cases hsv : sv = ""
        · subst hsv; cases f <;> cases p <;> cases le <;> simp [applyProgressUpdate]
        · by_cases hproc : sv = "processing"
          · subst hproc
            cases f <;> cases p <;> cases le <;>
              simp [applyProgressUpdate, hsv]
          · by_cases hcomp : sv = "completed"
            · subst hcomp
              cases f <;> cases p <;> cases le <;>
                simp [applyProgressUpdate, hsv]
            · cases f <;> cases p <;> cases le <;>
                simp [applyProgressUpdate, hsv, hproc, hcomp]
    · rintro rfl
      cases s with
      | none => cases f <;> cases p <;> cases e <;> simp [applyProgressUpdate]
      | some sv =>
        by_cases hsv : sv = ""
        · subst hsv; cases f <;> cases p <;> cases e <;> simp [applyProgressUpdate]
        · by_cases hproc : sv = "processing"
          · subst hproc
            cases f <;> cases p <;> cases e <;>
              simp [applyProgressUpdate, hsv]
          · by_cases hcomp : sv = "completed"
            · subst hcomp
              cases f <;> cases p <;> cases e <;>
                simp [applyProgressUpdate, hsv]
            · cases f <;> cases p <;> cases e <;>
                simp [applyProgressUpdate, hsv, hproc, hcomp]
  refine ⟨?_, ?_, ?_, ?_, ?_, ?_, ?_⟩
  · rintro rfl rfl
    cases p <;> cases e <;> cases le <;> simp [applyProgressUpdate]
  · rintro rfl
    cases f <;> cases p <;> cases e <;> cases le <;> simp [applyProgressUpdate]
  · intro v hv; subst hv
    cases s with
    | none => cases p <;> cases e <;> cases le <;> simp [applyProgressUpdate]
    | some sv =>
      by_cases hsv : sv = ""
      · subst hsv; cases p <;> cases e <;> cases le <;> simp [applyProgressUpdate]
      · by_cases hproc : sv = "processing"
        · subst hproc
          cases p <;> cases e <;> cases le <;> simp [applyProgressUpdate, hsv]
        · by_cases hcomp : sv = "completed"
          · subst hcomp
            cases p <;> cases e <;> cases le <;> simp [applyProgressUpdate, hsv]
          · cases p <;> cases e <;> cases le <;>
              simp [applyProgressUpdate, hsv, hproc, hcomp]
  · intro v hv; subst hv
    cases s with
    | none => cases f <;> cases e <;> cases le <;> simp [applyProgressUpdate]
    | some sv =>
      by_cases hsv : sv = ""
      · subst hsv; cases f <;> cases e <;> cases le <;> simp [applyProgressUpdate]
      · by_cases hproc : sv = "processing"
        · subst hproc
          cases f <;> cases e <;> cases le <;> simp [applyProgressUpdate, hsv]
        · by_cases hcomp : sv = "completed"
          · subst hcomp
            cases f <;> cases e <;> cases le <;> simp [applyProgressUpdate, hsv]
          · cases f <;> cases e <;> cases le <;>
              simp [applyProgressUpdate, hsv, hproc, hcomp]
  · intro v hv; subst hv
    cases s with
    | none => cases f <;> cases p <;> cases le <;> simp [applyProgressUpdate]
    | some sv =>
      by_cases hsv : sv = ""
      · subst hsv; cases f <;> cases p <;> cases le <;> simp [applyProgressUpdate]
      · by_cases hproc : sv = "processing"
        · subst hproc
          cases f <;> cases p <;> cases le <;> simp [applyProgressUpdate, hsv]
        · by_cases hcomp : sv = "completed"
          · subst hcomp
            cases f <;> cases p <;> cases le <;> simp [applyProgressUpdate, hsv]
          · cases f <;> cases p <;> cases le <;>
              simp [applyProgressUpdate, hsv, hproc, hcomp]
  · intro v hv; subst hv
    cases s with
    | none => cases f <;> cases p <;> cases e <;> simp [applyProgressUpdate]
    | some sv =>
      by_cases hsv : sv = ""
      · subst hsv; cases f <;> cases p <;> cases e <;> simp [applyProgressUpdate]
      · by_cases hproc : sv = "processing"
        · subst hproc
          cases f <;> cases p <;> cases e <;> simp [applyProgressUpdate, hsv]
        · by_cases hcomp : sv = "completed"
          · subst hcomp
            cases f <;> cases p <;> cases e <;> simp [applyProgressUpdate, hsv]
          · cases f <;> cases p <;> cases e <;>
              simp [applyProgressUpdate, hsv, hproc, hcomp]
  · intro l url r' hr' hne
    rw [update_progress]
    have : (fun rr : ProgressRow =>
        if rr.lot_url = url then applyProgressUpdate rr s f p e le now else rr) r' = r' := by
      simp only []
      rw [if_neg hne]
    rw [← this]
    exact List.mem_map_of_mem _ hr'

/-- Witness for the amended C8: a concrete retry re-entering `processing`
at instant 7 stamps `started_at := 7`, and a counters-only update leaves
status alone. -/
theorem update_progress_sparse_witness :
    (applyProgressUpdate ⟨"u", "a", "failed", 4, 2, some 5, none, 1, none⟩
        (some "processing") none none none none 7).status = "processing"
    ∧ (applyProgressUpdate ⟨"u", "a", "failed", 4, 2, some 5, none, 1, none⟩
        (some "processing") none none none none 7).started_at = some 7 :=
  (update_progress_sparse ⟨"u", "a", "failed", 4, 2, some 5, none, 1, none⟩
    (some "processing") none none none none 7).2.1 rfl rfl

/-- When `extract_links` finds no new links it leaves the accumulated set
unchanged. -/
theorem extract_links_nil_set (m : Option Nat) :
    ∀ (hrefs L : List String),
      (extract_links m L hrefs).1 = [] → (extract_links m L hrefs).2 = L := by
  intro hrefs
  induction hrefs with
  | nil => intro L _; rfl
  | cons href rest ih =>
    intro L h
    rw [extract_links] at h ⊢
    by_cases hc : capReached m L.length = true
    · rw [if_pos hc] at h ⊢
    · rw [if_neg hc] at h ⊢
      by_cases hk : href ≠ "" ∧ href ∉ L
      · rw [if_pos hk] at h
        by_cases hcap2 : capReached m (L ++ [href]).length = true
        · rw [if_pos hcap2] at h
          simp at h
        · rw [if_neg hcap2] at h
          simp at h
      · rw [if_neg hk] at h ⊢
        exact ih L h

/-- A page contributing zero new links leaves the accumulated set
unchanged. -/
theorem pageNewLinks_nil_set (m : Option Nat) (outcome : PageOutcome)
    (L : List String) (h : (pageNewLinks m outcome L).1 = []) :
    (pageNewLinks m outcome L).2 = L := by
  cases outcome with
  | err => rfl
  | ok hrefs => exact extract_links_nil_set m hrefs L h

/-- One loop iteration on a zero-new-link page below the empty-page limit:
the page is scraped, the empty streak grows, and the loop continues on the
next page with the set unchanged. -/
theorem scraperLoop_zero_new_step (m : Option Nat) (pages : Nat → PageOutcome)
    (fuel p c : Nat) (L : List String) (ps : Nat)
    (hcap : capReached m L.length = false)
    (h0 : (pageNewLinks m (pages p) L).1 = [])
    (hlt : c + 1 < 3) :
    ∃ ps' : Nat, scraperLoop m pages (fuel + 1) p c L ps
      = ⟨p :: (scraperLoop m pages fuel (p + 1) (c + 1) L ps').trace,
         (scraperLoop m pages fuel (p + 1) (c + 1) L ps').all_links,
         (scraperLoop m pages fuel (p + 1) (c + 1) L ps').pages_scraped⟩ := by
  have hs := pageNewLinks_nil_set m (pages p) L h0
  refine ⟨(match pages p with | .err => ps | .ok _ => ps + 1), ?_⟩
  rw [scraperLoop]
  rw [if_neg (by simp [hcap])]
  rw [if_neg (by rw [h0]; simp; omega)]
  rw [h0]
  simp only [List.length_nil, if_pos rfl]
  rw [hs, if_neg (by simp [hcap])]
  simp

/-- One loop iteration on a zero-new-link page that completes the streak of
3: the loop halts right after this page, scraping nothing further. -/
theorem scraperLoop_third_empty_halt (m : Option Nat) (pages : Nat → PageOutcome)
    (fuel p c : Nat) (L : List String) (ps : Nat)
    (hcap : capReached m L.length = false)
    (h0 : (pageNewLinks m (pages p) L).1 = [])
    (hge : 2 ≤ c) :
    (scraperLoop m pages (fuel + 1) p c L ps).trace = [p] := by
  rw [scraperLoop]
  rw [if_neg (by simp [hcap])]
  rw [if_pos (by rw [h0]; simp; omega)]

/-- C9: starting from a state whose empty streak was just reset by a
non-empty page (consecutive_empty = 0 and the cap not reached), three
consecutive pages that contribute zero new links make the link-discovery
loop terminate exactly at the third such page — the trace of scraped pages
is `[p, p+1, p+2]` whatever fuel remains; and from any state in which the
accumulated set has reached an active `max_links` cap the loop terminates
immediately, scraping no page at all. -/
theorem scraper_run_termination :
    (∀ (m : Option Nat) (pages : Nat → PageOutcome) (L : List String)
        (p ps fuel : Nat),
      capReached m L.length = false →
      (pageNewLinks m (pages p) L).1 = [] →
      (pageNewLinks m (pages (p + 1)) L).1 = [] →
      (pageNewLinks m (pages (p + 2)) L).1 = [] →
      (scraperLoop m pages (fuel + 3) p 0 L ps).trace = [p, p + 1, p + 2])
    ∧ (∀ (m : Option Nat) (pages : Nat → PageOutcome) (L : List String)
        (p c ps fuel : Nat),
      capReached m L.length = true →
      scraperLoop m pages fuel p c L ps = ⟨[], L, ps⟩) := by
  constructor
  · intro m pages L p ps fuel hcap h1 h2 h3
    obtain ⟨ps1, e1⟩ := scraperLoop_zero_new_step m pages (fuel + 2) p 0 L ps hcap h1
      (by omega)
    rw [e1]
    obtain ⟨ps2, e2⟩ := scraperLoop_zero_new_step m pages (fuel + 1) (p + 1) 1 L ps1 hcap h2
      (by omega)
    rw [e2]
    have e3 := scraperLoop_third_empty_halt m pages fuel (p + 1 + 1) 2 L ps2 hcap
      (by rw [show p + 1 + 1 = p + 2 from rfl]; exact h3) (by omega)
    simp only [e3]
  · intro m pages L p c ps fuel hcap
    cases fuel with
    | zero => rfl
    | succ n =>
      rw [scraperLoop]
      rw [if_pos hcap]

/-- Witness for C9: a page oracle that always re-serves the already-known
link "a" makes the loop starting at page 1 stop with trace [1, 2, 3]; with
the cap already reached the loop scrapes nothing. -/
theorem scraper_run_termination_witness :
    (scraperLoop (some 5) (fun _ => PageOutcome.ok ["a"]) 3 1 0 ["a"] 0).trace
      = [1, 2, 3]
    ∧ scraperLoop (some 1) (fun _ => PageOutcome.ok ["b"]) 4 1 0 ["a"] 7
      = ⟨[], ["a"], 7⟩ :=
  ⟨scraper_run_termination.1 (some 5) (fun _ => PageOutcome.ok ["a"]) ["a"] 1 0 0
      (by decide) (by decide) (by decide) (by decide),
   scraper_run_termination.2 (some 1) (fun _ => PageOutcome.ok ["b"]) ["a"] 1 0 7 4
      (by decide)⟩

/-- The stored progress status of a URL, if any. -/
def statusOf (progress : List ProgressRow) (url : String) : Option String :=
  (findProgress progress url).map (fun r => r.status)

/-- `applyProgressUpdate` never touches the key column `lot_url`. -/
theorem applyProgressUpdate_lot_url (r : ProgressRow) (s : Option String)
    (f p e : Option Nat) (le : Option String) (now : Nat) :
    (applyProgressUpdate r s f p e le now).lot_url = r.lot_url := by
  cases s <;> cases f <;> cases p <;> cases e <;> cases le <;>
    simp only [applyProgressUpdate] <;> split_ifs <;> rfl

/-- Setting status `'completed'` writes status `"completed"` on the row. -/
theorem applyProgressUpdate_status_completed (r : ProgressRow)
    (f p e : Option Nat) (le : Option String) (now : Nat) :
    (applyProgressUpdate r (some "completed") f p e le now).status = "completed" := by
  cases f <;> cases p <;> cases e <;> cases le <;> simp [applyProgressUpdate]

/-- `update_progress` preserves the key column of every row. -/
theorem update_progress_lot_url_map (l : List ProgressRow) (url : String)
    (s : Option String) (f p e : Option Nat) (le : Option String) (now : Nat) :
    (update_progress l url s f p e le now).map (fun r => r.lot_url)
      = l.map (fun r => r.lot_url) := by
  rw [update_progress, List.map_map]
  apply List.map_congr_left
  intro r _
  simp only [Function.comp]
  split_ifs with h
  · rw [applyProgressUpdate_lot_url]
  · rfl

/-- `increment_processed` preserves the key column of every row. -/
theorem increment_processed_lot_url_map (l : List ProgressRow) (url : String) :
    (increment_processed l url).map (fun r => r.lot_url)
      = l.map (fun r => r.lot_url) := by
  rw [increment_processed, List.map_map]
  apply List.map_congr_left
  intro r _
  simp only [Function.comp]
  split_ifs with h <;> rfl

/-- Marking a URL completed yields stored status `"completed"` whenever a
row for the URL exists. -/
theorem statusOf_update_completed (url : String) (f p e : Option Nat)
    (le : Option String) (now : Nat) :
    ∀ l : List ProgressRow, url ∈ l.map (fun r => r.lot_url) →
      statusOf (update_progress l url (some "completed") f p e le now) url
        = some "completed" := by
  intro l
  induction l with
  | nil => intro h; simp at h
  | cons r rest ih =>
    intro h
    rw [update_progress, List.map_cons]
    by_cases hr : r.lot_url = url
    · rw [if_pos hr]
      rw [statusOf, findProgress,
        List.find?_cons_of_pos _ (by simp [applyProgressUpdate_lot_url, hr])]
      simp [applyProgressUpdate_status_completed]
    · rw [if_neg hr]
      have hmem : url ∈ rest.map (fun r => r.lot_url) := by
        rcases List.mem_map.mp h with ⟨x, hx, hxe⟩
        rcases List.mem_cons.mp hx with h1 | h2
        · exact absurd (h1 ▸ hxe) hr
        · exact List.mem_map.mpr ⟨x, h2, hxe⟩
      have := ih hmem
      rw [statusOf, findProgress, List.find?_cons_of_neg]
      · exact this
      · simp [hr]

/-- The freshly returned progress row of `get_or_create_progress` is what a
subsequent lookup of the URL finds. -/
theorem findProgress_get_or_create (l : List ProgressRow) (u a : String) (now : Nat) :
    findProgress (get_or_create_progress l u a now).2 u
      = some (get_or_create_progress l u a now).1 := by
  rw [get_or_create_progress]
  cases h : findProgress l u with
  | some row => simp [h]
  | none =>
    simp only [h]
    rw [findProgress] at h ⊢
    rw [List.find?_append, h]
    simp

/-- After `get_or_create_progress` a row keyed by the URL exists. -/
theorem get_or_create_mem (l : List ProgressRow) (u a : String) (now : Nat) :
    u ∈ ((get_or_create_progress l u a now).2.map (fun r => r.lot_url)) := by
  have h := findProgress_get_or_create l u a now
  rw [findProgress] at h
  have hmem := List.mem_of_find?_eq_some h
  have hpred := List.find?_some h
  refine List.mem_map.mpr ⟨_, hmem, ?_⟩
  simpa using hpred

/-- The lot loop leaves the set of progress-row keys unchanged (it touches
progress only through `increment_processed`). -/
theorem lotLoop_progress_url_map (env : FetchEnv) (sched : Nat → Bool)
    (u aid : String) :
    ∀ (lots : List String) (k : Nat) (db : DBState) (stats : RunStats),
      ((lotLoop env sched u aid lots k db stats).1.progress).map (fun r => r.lot_url)
        = db.progress.map (fun r => r.lot_url) := by
  intro lots
  induction lots with
  | nil => intro k db stats; rfl
  | cons lid rest ih =>
    intro k db stats
    rw [lotLoop]
    by_cases hsd : sched k = true
    · rw [if_pos hsd]
    · rw [if_neg hsd]
      rw [ih]
      cases hd : env.lotDetail lid with
      | none => rw [process_lot]
      | some rows =>
        rw [process_lot]
        by_cases hins : (insert_lot_detail db.lot_details u lid aid
            (parse_lot_table rows)
            (determine_parse_status (parse_lot_table rows)).1
            (determine_parse_status (parse_lot_table rows)).2).1 = true
        · rw [if_pos hins]
          exact increment_processed_lot_url_map _ _
        · rw [if_neg hins]

/-- The non-skip path of `process_url` always ends with the URL marked
`'completed'` once the listing fetch succeeds, for every shutdown
schedule. -/
theorem process_url_body_completed (env : FetchEnv) (sched : Nat → Bool)
    (url aid : String) (now : Nat) (db : DBState) (stats : RunStats)
    (hfetch : env.listingPage.isSome = true)
    (hmem : url ∈ db.progress.map (fun r => r.lot_url)) :
    statusOf (process_url_body env sched url aid now db stats).1.progress url
      = some "completed" := by
  obtain ⟨attrs, ha⟩ := Option.isSome_iff_exists.mp hfetch
  rw [process_url_body]
  simp only [ha]
  by_cases hnil : extract_lot_ids attrs = []
  · rw [if_pos hnil]
    apply statusOf_update_completed
    rw [update_progress_lot_url_map]
    exact hmem
  · rw [if_neg hnil]
    apply statusOf_update_completed
    rw [lotLoop_progress_url_map, update_progress_lot_url_map, update_progress_lot_url_map]
    exact hmem

/-- C7: whenever the announce-id extraction and the listing fetch succeed,
`process_url` leaves the URL with stored progress status `'completed'` for
every shutdown schedule — in particular both when the lot loop ran to the
end and when a cooperative shutdown request broke out of it mid-way (the
break still falls through to the completion update), and likewise when the
URL was skipped as already completed; a partially-interrupted URL therefore
ends `'completed'`, never `'failed'` or `'pending'`. -/
theorem process_url_marks_completed (resume : Bool) (env : FetchEnv)
    (shutdownAt : Nat → Bool) (url aid : String) (now : Nat)
    (db : DBState) (stats : RunStats)
    (hid : extract_announce_id url = some aid) (hne : aid ≠ "")
    (hfetch : env.listingPage.isSome = true) :
    statusOf (process_url resume env shutdownAt url now db stats).1.progress url
      = some "completed" := by
  rw [process_url]
  simp only [hid]
  rw [if_neg hne]
  by_cases hskip :
      (get_or_create_progress db.progress url aid now).1.status = "completed"
      ∧ resume = true
  · rw [if_pos hskip]
    show statusOf (get_or_create_progress db.progress url aid now).2 url = _
    rw [statusOf, findProgress_get_or_create]
    simp [hskip.1]
  · rw [if_neg hskip]
    exact process_url_body_completed env shutdownAt url aid now
      { db with progress := (get_or_create_progress db.progress url aid now).2 } stats
      hfetch (get_or_create_mem db.progress url aid now)

/-- Witness for C7: a URL with two lots whose shutdown flag turns on after
the first lot (the loop is cut short) still ends with status
`'completed'`. -/
theorem process_url_marks_completed_witness :
    statusOf (process_url true
        ⟨some ["L1", "L2"], fun _ => some [("Лот №", "1")]⟩
        (fun k => decide (1 ≤ k))
        "https://host/ru/announce/index/777" 5 ⟨[], []⟩ ⟨0, 0, 0, 0⟩).1.progress
      "https://host/ru/announce/index/777" = some "completed" :=
  process_url_marks_completed true
    ⟨some ["L1", "L2"], fun _ => some [("Лот №", "1")]⟩
    (fun k => decide (1 ≤ k))
    "https://host/ru/announce/index/777" "777" 5 ⟨[], []⟩ ⟨0, 0, 0, 0⟩
    (by decide) (by decide) rfl

/-- Two lot rows differ on the `UNIQUE(lot_url, data_lot_id)` key. -/
def LotKeyDistinct (a b : LotRow) : Prop :=
  a.lot_url ≠ b.lot_url ∨ a.data_lot_id ≠ b.data_lot_id

/-- No two stored lot rows share a (lot_url, data_lot_id) pair. -/
def NoDupKeys (l : List LotRow) : Prop := l.Pairwise LotKeyDistinct

/-- `insert_lot_detail` preserves key uniqueness: it only appends when the
key is absent. -/
theorem insert_lot_detail_nodup (l : List LotRow) (u i a : String)
    (pd : List (String × Option String)) (ps : String) (em : Option String)
    (h : NoDupKeys l) :
    NoDupKeys (insert_lot_detail l u i a pd ps em).2 := by
  rw [insert_lot_detail]
  by_cases hk : hasLotKey l u i = true
  · rw [if_pos hk]
    exact h
  · rw [if_neg hk]
    have hfalse : hasLotKey l u i = false := by
      cases hh : hasLotKey l u i
      · rfl
      · exact absurd hh hk
    have hnone := List.any_eq_false.mp hfalse
    refine List.pairwise_append.mpr ⟨h, List.pairwise_singleton _ _, ?_⟩
    intro x hx y hy
    rw [List.mem_singleton] at hy
    subst hy
    have hx' := hnone x hx
    rw [LotKeyDistinct]
    by_cases hxu : x.lot_url = u
    · right
      intro hxi
      have hxi' : x.data_lot_id = i := hxi
      exact hx' (by simp [hxu, hxi'])
    · left
      intro hcc
      exact hxu hcc

/-- `process_lot` preserves key uniqueness of the lot table. -/
theorem process_lot_nodup (db : DBState) (stats : RunStats) (u aid lid : String)
    (detail : Option (List (String × String))) (h : NoDupKeys db.lot_details) :
    NoDupKeys (process_lot db stats u aid lid detail).1.lot_details := by
  cases detail with
  | none => exact h
  | some rows =>
    rw [process_lot]
    by_cases hins : (insert_lot_detail db.lot_details u lid aid
        (parse_lot_table rows)
        (determine_parse_status (parse_lot_table rows)).1
        (determine_parse_status (parse_lot_table rows)).2).1 = true
    · rw [if_pos hins]
      exact insert_lot_detail_nodup _ _ _ _ _ _ _ h
    · rw [if_neg hins]
      exact h

/-- The lot loop preserves key uniqueness of the lot table. -/
theorem lotLoop_nodup (env : FetchEnv) (sched : Nat → Bool) (u aid : String) :
    ∀ (lots : List String) (k : Nat) (db : DBState) (stats : RunStats),
      NoDupKeys db.lot_details →
      NoDupKeys (lotLoop env sched u aid lots k db stats).1.lot_details := by
  intro lots
  induction lots with
  | nil => intro k db stats h; exact h
  | cons lid rest ih =>
    intro k db stats h
    rw [lotLoop]
    by_cases hsd : sched k = true
    · rw [if_pos hsd]
      exact h
    · rw [if_neg hsd]
      exact ih _ _ _ (process_lot_nodup db stats u aid lid (env.lotDetail lid) h)

/-- `process_url` preserves key uniqueness of the lot table. -/
theorem process_url_nodup (resume : Bool) (env : FetchEnv) (sched : Nat → Bool)
    (url : String) (now : Nat) (db : DBState) (stats : RunStats)
    (h : NoDupKeys db.lot_details) :
    NoDupKeys (process_url resume env sched url now db stats).1.lot_details := by
  cases hid : extract_announce_id url with
  | none =>
    rw [process_url]
    simp only [hid]
    exact h
  | some aid =>
    rw [process_url]
    simp only [hid]
    by_cases haid : aid = ""
    · rw [if_pos haid]
      exact h
    rw [if_neg haid]
    by_cases hskip :
        (get_or_create_progress db.progress url aid now).1.status = "completed"
        ∧ resume = true
    · rw [if_pos hskip]
      exact h
    · rw [if_neg hskip]
      cases hl : env.listingPage with
      | none =>
        rw [process_url_body]
        simp only [hl]
        exact h
      | some attrs =>
        rw [process_url_body]
        simp only [hl]
        by_cases hnil : extract_lot_ids attrs = []
        · rw [if_pos hnil]
          exact h
        · rw [if_neg hnil]
          exact lotLoop_nodup env sched url aid _ _ _ _ h

/-- The URL loop preserves key uniqueness of the lot table. -/
theorem runUrls_nodup (resume : Bool) (urlEnv : String → FetchEnv)
    (su : Nat → Bool) (sl : Nat → Nat → Bool) (now : Nat) :
    ∀ (urls : List String) (i : Nat) (db : DBState) (stats : RunStats),
      NoDupKeys db.lot_details →
      NoDupKeys (runUrls resume urlEnv su sl now urls i db stats).1.lot_details := by
  intro urls
  induction urls with
  | nil => intro i db stats h; exact h
  | cons url rest ih =>
    intro i db stats h
    rw [runUrls]
    by_cases hsd : su i = true
    · rw [if_pos hsd]
      exact h
    · rw [if_neg hsd]
      exact ih _ _ _ (process_url_nodup resume (urlEnv url) (sl i) url now db stats h)

/-- C2: in resume mode a URL whose stored progress status is `'completed'`
is skipped entirely (`process_url` returns the state untouched for every
network environment, i.e. before any fetch); a URL whose stored status is
`'pending'` or `'failed'` takes the full processing path; and re-running
the orchestrator loop over any URL list never produces two lot records
with the same (lot_url, data_lot_id) pair, because the uniqueness
invariant of the lot table is preserved by every step. -/
theorem resume_skip_and_no_duplicate_records :
    (∀ (env : FetchEnv) (sched : Nat → Bool) (url : String) (now : Nat)
        (db : DBState) (stats : RunStats) (row : ProgressRow),
      findProgress db.progress url = some row → row.status = "completed" →
      process_url true env sched url now db stats = (db, stats))
    ∧ (∀ (resume : Bool) (env : FetchEnv) (sched : Nat → Bool) (url aid : String)
        (now : Nat) (db : DBState) (stats : RunStats) (row : ProgressRow),
      extract_announce_id url = some aid → aid ≠ "" →
      findProgress db.progress url = some row →
      (row.status = "pending" ∨ row.status = "failed") →
      process_url resume env sched url now db stats
        = process_url_body env sched url aid now db stats)
    ∧ (∀ (resume : Bool) (urlEnv : String → FetchEnv) (su : Nat → Bool)
        (sl : Nat → Nat → Bool) (now : Nat) (urls : List String) (i : Nat)
        (db : DBState) (stats : RunStats),
      NoDupKeys db.lot_details →
      NoDupKeys (runUrls resume urlEnv su sl now urls i db stats).1.lot_details) := by
  refine ⟨?_, ?_, ?_⟩
  · intro env sched url now db stats row hfind hst
    cases hid : extract_announce_id url with
    | none =>
      rw [process_url]
      simp only [hid]
    | some aid =>
      rw [process_url]
      simp only [hid, get_or_create_progress, hfind]
      by_cases haid : aid = ""
      · rw [if_pos haid]
      · rw [if_neg haid]
        rw [if_pos ⟨hst, by trivial⟩]
  · intro resume env sched url aid now db stats row hid hne hfind hst
    have hskip : ¬(row.status = "completed" ∧ resume = true) := by
      rintro ⟨hc, -⟩
      rcases hst with hp | hf
      · rw [hp] at hc
        exact absurd hc (by decide)
      · rw [hf] at hc
        exact absurd hc (by decide)
    rw [process_url]
    simp only [hid, get_or_create_progress, hfind]
    rw [if_neg hne, if_neg hskip]
  · intro resume urlEnv su sl now urls i db stats h
    exact runUrls_nodup resume urlEnv su sl now urls i db stats h

/-- Concrete completed-row store for the C2 witness. -/
def dbCompleted : DBState :=
  ⟨[], [⟨"https://h/ru/announce/index/9", "9", "completed", 0, 0, some 1, some 2, 0, none⟩]⟩

/-- Concrete pending-row store for the C2 witness. -/
def dbPending : DBState :=
  ⟨[], [⟨"https://h/ru/announce/index/9", "9", "pending", 0, 0, some 1, none, 0, none⟩]⟩

/-- Network environment whose listing fetch fails (C2 witness). -/
def envNoFetch : FetchEnv := ⟨none, fun _ => none⟩

/-- Witness for C2: the completed row is skipped untouched, the pending row
goes down the processing path, and a re-run over a duplicated URL list
keeps the lot table free of duplicate keys. -/
theorem resume_skip_and_no_duplicate_records_witness :
    process_url true envNoFetch (fun _ => false) "https://h/ru/announce/index/9" 3
        dbCompleted ⟨0, 0, 0, 0⟩ = (dbCompleted, ⟨0, 0, 0, 0⟩)
    ∧ process_url true envNoFetch (fun _ => false) "https://h/ru/announce/index/9" 3
        dbPending ⟨0, 0, 0, 0⟩
      = process_url_body envNoFetch (fun _ => false) "https://h/ru/announce/index/9" "9" 3
        dbPending ⟨0, 0, 0, 0⟩
    ∧ NoDupKeys (runUrls true (fun _ => envNoFetch) (fun _ => false) (fun _ _ => false) 3
        ["https://h/ru/announce/index/9", "https://h/ru/announce/index/9"] 1
        ⟨[], []⟩ ⟨0, 0, 0, 0⟩).1.lot_details :=
  ⟨resume_skip_and_no_duplicate_records.1 envNoFetch (fun _ => false)
      "https://h/ru/announce/index/9" 3 dbCompleted ⟨0, 0, 0, 0⟩
      ⟨"https://h/ru/announce/index/9", "9", "completed", 0, 0, some 1, some 2, 0, none⟩
      (by decide) rfl,
   resume_skip_and_no_duplicate_records.2.1 true envNoFetch (fun _ => false)
      "https://h/ru/announce/index/9" "9" 3 dbPending ⟨0, 0, 0, 0⟩
      ⟨"https://h/ru/announce/index/9", "9", "pending", 0, 0, some 1, none, 0, none⟩
      (by decide) (by decide) (by decide) (Or.inl rfl),
   resume_skip_and_no_duplicate_records.2.2 true (fun _ => envNoFetch) (fun _ => false)
      (fun _ _ => false) 3
      ["https://h/ru/announce/index/9", "https://h/ru/announce/index/9"] 1
      ⟨[], []⟩ ⟨0, 0, 0, 0⟩ List.Pairwise.nil⟩

end Goszakup
